import Mathlib

/-!
Verification of the Modbus RTU sniffer's frame reassembly and decoding core.

The definitions below are a shallow embedding of `src/modbus_sniffer.py`:
bytes are `Nat` values below 256, the accumulation buffer is a `List Nat`,
the open noise run (`trash_data` / `trash_data_f`) is an `Option (List Nat)`,
and each logged frame becomes an `Event` value carrying the byte span it
consumed from the buffer.
-/

namespace ModbusSniffer

/-- The 256-entry high-byte CRC table (`crc_hi_table` in `calcCRC16`). -/
def crcHiTable : List Nat :=
  [0x00, 0xC1, 0x81, 0x40, 0x01, 0xC0, 0x80, 0x41, 0x01, 0xC0,
   0x80, 0x41, 0x00, 0xC1, 0x81, 0x40, 0x01, 0xC0, 0x80, 0x41,
   0x00, 0xC1, 0x81, 0x40, 0x00, 0xC1, 0x81, 0x40, 0x01, 0xC0,
   0x80, 0x41, 0x01, 0xC0, 0x80, 0x41, 0x00, 0xC1, 0x81, 0x40,
   0x00, 0xC1, 0x81, 0x40, 0x01, 0xC0, 0x80, 0x41, 0x00, 0xC1,
   0x81, 0x40, 0x01, 0xC0, 0x80, 0x41, 0x01, 0xC0, 0x80, 0x41,
   0x00, 0xC1, 0x81, 0x40, 0x01, 0xC0, 0x80, 0x41, 0x00, 0xC1,
   0x81, 0x40, 0x00, 0xC1, 0x81, 0x40, 0x01, 0xC0, 0x80, 0x41,
   0x00, 0xC1, 0x81, 0x40, 0x01, 0xC0, 0x80, 0x41, 0x01, 0xC0,
   0x80, 0x41, 0x00, 0xC1, 0x81, 0x40, 0x00, 0xC1, 0x81, 0x40,
   0x01, 0xC0, 0x80, 0x41, 0x01, 0xC0, 0x80, 0x41, 0x00, 0xC1,
   0x81, 0x40, 0x01, 0xC0, 0x80, 0x41, 0x00, 0xC1, 0x81, 0x40,
   0x00, 0xC1, 0x81, 0x40, 0x01, 0xC0, 0x80, 0x41, 0x01, 0xC0,
   0x80, 0x41, 0x00, 0xC1, 0x81, 0x40, 0x00, 0xC1, 0x81, 0x40,
   0x01, 0xC0, 0x80, 0x41, 0x00, 0xC1, 0x81, 0x40, 0x01, 0xC0,
   0x80, 0x41, 0x01, 0xC0, 0x80, 0x41, 0x00, 0xC1, 0x81, 0x40,
   0x00, 0xC1, 0x81, 0x40, 0x01, 0xC0, 0x80, 0x41, 0x01, 0xC0,
   0x80, 0x41, 0x00, 0xC1, 0x81, 0x40, 0x01, 0xC0, 0x80, 0x41,
   0x00, 0xC1, 0x81, 0x40, 0x00, 0xC1, 0x81, 0x40, 0x01, 0xC0,
   0x80, 0x41, 0x00, 0xC1, 0x81, 0x40, 0x01, 0xC0, 0x80, 0x41,
   0x01, 0xC0, 0x80, 0x41, 0x00, 0xC1, 0x81, 0x40, 0x01, 0xC0,
   0x80, 0x41, 0x00, 0xC1, 0x81, 0x40, 0x00, 0xC1, 0x81, 0x40,
   0x01, 0xC0, 0x80, 0x41, 0x01, 0xC0, 0x80, 0x41, 0x00, 0xC1,
   0x81, 0x40, 0x00, 0xC1, 0x81, 0x40, 0x01, 0xC0, 0x80, 0x41,
   0x00, 0xC1, 0x81, 0x40, 0x01, 0xC0, 0x80, 0x41, 0x01, 0xC0,
   0x80, 0x41, 0x00, 0xC1, 0x81, 0x40]

/-- The 256-entry low-byte CRC table (`crc_lo_table` in `calcCRC16`). -/
def crcLoTable : List Nat :=
  [0x00, 0xC0, 0xC1, 0x01, 0xC3, 0x03, 0x02, 0xC2, 0xC6, 0x06,
   0x07, 0xC7, 0x05, 0xC5, 0xC4, 0x04, 0xCC, 0x0C, 0x0D, 0xCD,
   0x0F, 0xCF, 0xCE, 0x0E, 0x0A, 0xCA, 0xCB, 0x0B, 0xC9, 0x09,
   0x08, 0xC8, 0xD8, 0x18, 0x19, 0xD9, 0x1B, 0xDB, 0xDA, 0x1A,
   0x1E, 0xDE, 0xDF, 0x1F, 0xDD, 0x1D, 0x1C, 0xDC, 0x14, 0xD4,
   0xD5, 0x15, 0xD7, 0x17, 0x16, 0xD6, 0xD2, 0x12, 0x13, 0xD3,
   0x11, 0xD1, 0xD0, 0x10, 0xF0, 0x30, 0x31, 0xF1, 0x33, 0xF3,
   0xF2, 0x32, 0x36, 0xF6, 0xF7, 0x37, 0xF5, 0x35, 0x34, 0xF4,
   0x3C, 0xFC, 0xFD, 0x3D, 0xFF, 0x3F, 0x3E, 0xFE, 0xFA, 0x3A,
   0x3B, 0xFB, 0x39, 0xF9, 0xF8, 0x38, 0x28, 0xE8, 0xE9, 0x29,
   0xEB, 0x2B, 0x2A, 0xEA, 0xEE, 0x2E, 0x2F, 0xEF, 0x2D, 0xED,
   0xEC, 0x2C, 0xE4, 0x24, 0x25, 0xE5, 0x27, 0xE7, 0xE6, 0x26,
   0x22, 0xE2, 0xE3, 0x23, 0xE1, 0x21, 0x20, 0xE0, 0xA0, 0x60,
   0x61, 0xA1, 0x63, 0xA3, 0xA2, 0x62, 0x66, 0xA6, 0xA7, 0x67,
   0xA5, 0x65, 0x64, 0xA4, 0x6C, 0xAC, 0xAD, 0x6D, 0xAF, 0x6F,
   0x6E, 0xAE, 0xAA, 0x6A, 0x6B, 0xAB, 0x69, 0xA9, 0xA8, 0x68,
   0x78, 0xB8, 0xB9, 0x79, 0xBB, 0x7B, 0x7A, 0xBA, 0xBE, 0x7E,
   0x7F, 0xBF, 0x7D, 0xBD, 0xBC, 0x7C, 0xB4, 0x74, 0x75, 0xB5,
   0x77, 0xB7, 0xB6, 0x76, 0x72, 0xB2, 0xB3, 0x73, 0xB1, 0x71,
   0x70, 0xB0, 0x50, 0x90, 0x91, 0x51, 0x93, 0x53, 0x52, 0x92,
   0x96, 0x56, 0x57, 0x97, 0x55, 0x95, 0x94, 0x54, 0x9C, 0x5C,
   0x5D, 0x9D, 0x5F, 0x9F, 0x9E, 0x5E, 0x5A, 0x9A, 0x9B, 0x5B,
   0x99, 0x59, 0x58, 0x98, 0x88, 0x48, 0x49, 0x89, 0x4B, 0x8B,
   0x8A, 0x4A, 0x4E, 0x8E, 0x8F, 0x4F, 0x8D, 0x4D, 0x4C, 0x8C,
   0x44, 0x84, 0x85, 0x45, 0x87, 0x47, 0x46, 0x86, 0x82, 0x42,
   0x43, 0x83, 0x41, 0x81, 0x80, 0x40]

/-- One iteration of the `while index < size` loop of `calcCRC16`:
`crc = crc_hi ^ data[index]; crc_hi = crc_lo ^ crc_hi_table[crc];
crc_lo = crc_lo_table[crc]`. -/
def crcRound (hl : Nat × Nat) (b : Nat) : Nat × Nat :=
  let crc := hl.1 ^^^ b
  (hl.2 ^^^ crcHiTable.getD crc 0, crcLoTable.getD crc 0)

/-- `calcCRC16(data, size)`: fold `crcRound` over the first `size` bytes
starting from `(0xFF, 0xFF)` and return `crc_hi * 0x100 + crc_lo`. -/
def calcCRC16 (data : List Nat) (size : Nat) : Nat :=
  let hl := (data.take size).foldl crcRound (0xFF, 0xFF)
  hl.1 * 0x100 + hl.2

/-- Big-endian 16-bit read `modbus_data[i] * 0x0100 + modbus_data[i+1]`. -/
def be16 (d : List Nat) (i : Nat) : Nat :=
  d.getD i 0 * 0x100 + d.getD (i + 1) 0

/-- The checksum comparison `crc16 == met_crc16` performed after every
shape's payload: the embedded big-endian value at offset `n` against
`calcCRC16(modbus_data, n)`. -/
def crcOk (d : List Nat) (n : Nat) : Bool :=
  be16 d n == calcCRC16 d n

/-- The kind of frame a decode branch recognized (which of the
`request` / `response` / `error` flags it set). -/
inductive EKind where
  | req
  | resp
  | exc
deriving DecidableEq, Repr

/-- One decoded unit as logged by the sniffer: a run of ignored noise
bytes (`trash_data_f`), or a Request / Response / Exception frame.
Frame events carry the unit identifier `modbus_data[0]`, the raw
function-code byte `modbus_data[1]`, for exceptions the exception code
`modbus_data[2]`, and the byte span consumed from the buffer. -/
inductive Event where
  | noise (bytes : List Nat)
  | request (unit fc : Nat) (span : List Nat)
  | response (unit fc : Nat) (span : List Nat)
  | exception (unit fc code : Nat) (span : List Nat)
deriving DecidableEq, Repr

/-- Build the `Event` a branch outcome logs: the branch consumed the
first `k` buffer bytes and read its header fields at offsets 0..2. -/
def mkEvent : EKind → List Nat → Nat → Event
  | .req, d, k => .request (d.getD 0 0) (d.getD 1 0) (d.take k)
  | .resp, d, k => .response (d.getD 0 0) (d.getD 1 0) (d.take k)
  | .exc, d, k => .exception (d.getD 0 0) (d.getD 1 0) (d.getD 2 0) (d.take k)

/-- The bytes an emitted event accounts for. -/
def eventBytes : Event → List Nat
  | .noise bs => bs
  | .request _ _ s => s
  | .response _ _ s => s
  | .exception _ _ _ s => s

/-- A decode branch returns the recognized frame kind with its total
length (if any) together with the `need_more_data` flag. -/
abbrev BranchRes := Option (EKind × Nat) × Bool

/-- The variable-length read response shared by function codes 1/2, 3/4
and 23: gate on 7 buffered bytes, read `read_byte_count` at offset 2,
gate on `5 + count` bytes, then compare the checksum at offset
`3 + count`.  `nm` is the `need_more_data` flag accumulated so far. -/
def readResponse (d : List Nat) (nm : Bool) : BranchRes :=
  if 7 ≤ d.length then
    if 5 + d.getD 2 0 ≤ d.length then
      if crcOk d (3 + d.getD 2 0) then (some (.resp, 5 + d.getD 2 0), nm)
      else (none, nm)
    else (none, true)
  else (none, true)

/-- Function codes 1/2 and 3/4: fixed 8-byte request attempted first,
then (when the request did not match) the variable read response. -/
def branchRead (d : List Nat) : BranchRes :=
  if 8 ≤ d.length then
    if crcOk d 6 then (some (.req, 8), false)
    else readResponse d false
  else readResponse d true

/-- Function code 5 response: fixed 6 bytes, checksum at offset 4. -/
def fc5Response (d : List Nat) (nm : Bool) : BranchRes :=
  if 6 ≤ d.length then
    if crcOk d 4 then (some (.resp, 6), nm) else (none, nm)
  else (none, true)

/-- Function code 5: fixed 8-byte request, then fixed 6-byte response. -/
def branchFc5 (d : List Nat) : BranchRes :=
  if 8 ≤ d.length then
    if crcOk d 6 then (some (.req, 8), false)
    else fc5Response d false
  else fc5Response d true

/-- A fixed 8-byte response shape with checksum at offset 6 (function
codes 6, 15 and 16). -/
def respFixed8 (d : List Nat) (nm : Bool) : BranchRes :=
  if 8 ≤ d.length then
    if crcOk d 6 then (some (.resp, 8), nm) else (none, nm)
  else (none, true)

/-- Function code 6: fixed 8-byte request, then fixed 8-byte response. -/
def branchFc6 (d : List Nat) : BranchRes :=
  if 8 ≤ d.length then
    if crcOk d 6 then (some (.req, 8), false)
    else respFixed8 d false
  else respFixed8 d true

/-- Function code 15: variable request (gate 10 bytes, count at offset
6, total `9 + count`), then fixed 8-byte response. -/
def branchFc15 (d : List Nat) : BranchRes :=
  if 10 ≤ d.length then
    if 9 + d.getD 6 0 ≤ d.length then
      if crcOk d (7 + d.getD 6 0) then (some (.req, 9 + d.getD 6 0), false)
      else respFixed8 d false
    else respFixed8 d true
  else respFixed8 d true

/-- The exception-shaped check that sits at the end of the function
code 16 branch, guarded only by `request is False and response is
False`: 5 bytes, exception code at offset 2, checksum at offset 3. -/
def fc16ExcCheck (d : List Nat) (nm : Bool) : BranchRes :=
  if 5 ≤ d.length then
    if crcOk d 3 then (some (.exc, 5), nm) else (none, nm)
  else (none, true)

/-- Function code 16 after the request attempt: fixed 8-byte response,
then the in-branch exception check. -/
def fc16Tail (d : List Nat) (nm : Bool) : BranchRes :=
  if 8 ≤ d.length then
    if crcOk d 6 then (some (.resp, 8), nm) else fc16ExcCheck d nm
  else fc16ExcCheck d true

/-- Function code 16: variable request (gate 11 bytes, count at offset
6, total `9 + count`), then response, then the exception check. -/
def branchFc16 (d : List Nat) : BranchRes :=
  if 11 ≤ d.length then
    if 9 + d.getD 6 0 ≤ d.length then
      if crcOk d (7 + d.getD 6 0) then (some (.req, 9 + d.getD 6 0), false)
      else fc16Tail d false
    else fc16Tail d true
  else fc16Tail d true

/-- Function code 23: variable request (gate 15 bytes, count at offset
10, total `13 + count`), then the shared variable read response. -/
def branchFc23 (d : List Nat) : BranchRes :=
  if 15 ≤ d.length then
    if 13 + d.getD 10 0 ≤ d.length then
      if crcOk d (11 + d.getD 10 0) then (some (.req, 13 + d.getD 10 0), false)
      else readResponse d false
    else readResponse d true
  else readResponse d true

/-- The generic `function_code >= 0x80` exception branch: 5 bytes,
exception code at offset 2, checksum at offset 3. -/
def branchExc (d : List Nat) : BranchRes :=
  if 5 ≤ d.length then
    if crcOk d 3 then (some (.exc, 5), false) else (none, false)
  else (none, true)

/-- The `elif` chain of `decode_modbus` on the function code read at
`modbus_data[1]`; an unhandled code recognizes nothing and sets no
flag (falling through to the noise path). -/
def branchDispatch (fc : Nat) (d : List Nat) : BranchRes :=
  if fc = 1 ∨ fc = 2 then branchRead d
  else if fc = 3 ∨ fc = 4 then branchRead d
  else if fc = 5 then branchFc5 d
  else if fc = 6 then branchFc6 d
  else if fc = 15 then branchFc15 d
  else if fc = 16 then branchFc16 d
  else if fc = 23 then branchFc23 d
  else if 0x80 ≤ fc then branchExc d
  else (none, false)

/-- One iteration body of the `decode_modbus` loop after the
`len(modbus_data) > 2` guard. -/
def branch (d : List Nat) : BranchRes :=
  branchDispatch (d.getD 1 0) d

/-- Closing an open noise run when a frame is recognized: the
`if self.trash_data: ... log.info(self.trash_data_f)` block. -/
def flushTrash : Option (List Nat) → List Event
  | none => []
  | some bs => [.noise bs]

/-- The noise path: open a run with the leading byte, or append the
byte to the already-open run. -/
def pushTrash : Option (List Nat) → Nat → Option (List Nat)
  | none, b => some [b]
  | some bs, b => some (bs ++ [b])

/-- Bytes held by the (possibly open) noise run. -/
def trashBytes : Option (List Nat) → List Nat
  | none => []
  | some bs => bs

/-- The `while True` loop of `decode_modbus`, fuelled: each iteration
either returns the remaining buffer (`need_more_data`), consumes a
recognized frame, or consumes one leading noise byte.  Returns the
emitted events, the remaining buffer, and the noise-run state. -/
def decodeLoop : Nat → Option (List Nat) → List Nat →
    List Event × List Nat × Option (List Nat)
  | 0, t, d => ([], d, t)
  | n + 1, t, d =>
    match d with
    | u :: fc :: x :: rest =>
      match branch (u :: fc :: x :: rest) with
      | (some p, nm) =>
        let e := mkEvent p.1 (u :: fc :: x :: rest) p.2
        let evs := flushTrash t ++ [e]
        let d2 := (u :: fc :: x :: rest).drop (eventBytes e).length
        if nm then (evs, d2, none)
        else
          let r := decodeLoop n none d2
          (evs ++ r.1, r.2.1, r.2.2)
      | (none, true) => ([], u :: fc :: x :: rest, t)
      | (none, false) => decodeLoop n (pushTrash t u) (fc :: x :: rest)
    | _ => ([], d, t)

/-- `decode_modbus(input_data)` with the sniffer's noise-run state
threaded explicitly.  A fuel of `input.length` always suffices because
every non-returning iteration strictly shortens the buffer. -/
def decode_modbus (t : Option (List Nat)) (d : List Nat) :
    List Event × List Nat × Option (List Nat) :=
  decodeLoop d.length t d

/-- The sniffer state owned by `SerialSnooper`: the accumulation
buffer `self.data` and the open noise run (`trash_data` and
`trash_data_f`). -/
structure SnifferState where
  data : List Nat
  trash : Option (List Nat)
deriving DecidableEq, Repr

/-- `process_data(data_to_process)`: an empty chunk triggers a decode
of the buffer when more than 2 bytes are buffered; a non-empty chunk
is only appended, byte by byte, to the buffer. -/
def process_data (st : SnifferState) (chunk : List Nat) :
    SnifferState × List Event :=
  if chunk.length ≤ 0 then
    if 2 < st.data.length then
      let r := decode_modbus st.trash st.data
      (⟨r.2.1, r.2.2⟩, r.1)
    else (st, [])
  else (⟨st.data ++ chunk, st.trash⟩, [])

/-- Drive `process_data` over a list of chunks, collecting all emitted
events in order (the `while True: sniffer.process_data(...)` loop). -/
def runChunks : SnifferState → List (List Nat) →
    SnifferState × List Event
  | st, [] => (st, [])
  | st, c :: cs =>
    let r := process_data st c
    let r2 := runChunks r.1 cs
    (r2.1, r.2 ++ r2.2)

/-- `calculate_timeout(configured_baud_rate)`: `33 / B` below 19200
baud, else the fixed `0.001750` seconds, as an exact rational. -/
def calculate_timeout (configuredBaudRate : ℕ) : ℚ :=
  if configuredBaudRate < 19200 then 33 / (configuredBaudRate : ℚ)
  else 0.001750

/-- All bytes accounted for by a list of emitted events, in order. -/
def evsBytes (evs : List Event) : List Nat :=
  (evs.map eventBytes).flatten

theorem evsBytes_append (a b : List Event) :
    evsBytes (a ++ b) = evsBytes a ++ evsBytes b := by
  simp [evsBytes]

theorem evsBytes_flushTrash (t : Option (List Nat)) :
    evsBytes (flushTrash t) = trashBytes t := by
  cases t <;> simp [flushTrash, trashBytes, evsBytes, eventBytes]

theorem eventBytes_mkEvent (k : EKind) (d : List Nat) (n : Nat) :
    eventBytes (mkEvent k d n) = d.take n := by
  cases k <;> rfl

theorem take_drop_span (d : List Nat) (k : Nat) :
    d.take k ++ d.drop ((d.take k).length) = d := by
  rw [List.length_take]
  rcases le_total k d.length with h | h
  · rw [Nat.min_eq_left h, List.take_append_drop]
  · rw [Nat.min_eq_right h, List.drop_length, List.take_of_length_le h,
      List.append_nil]

theorem decodeLoop_nil (n : Nat) (t : Option (List Nat)) :
    decodeLoop n t [] = ([], [], t) := by
  cases n <;> rfl

theorem decodeLoop_short (n : Nat) (t : Option (List Nat)) (d : List Nat)
    (h : d.length ≤ 2) : decodeLoop n t d = ([], d, t) := by
  match n, d with
  | 0, d => rfl
  | _ + 1, [] => rfl
  | _ + 1, [_] => rfl
  | _ + 1, [_, _] => rfl
  | _ + 1, _ :: _ :: _ :: _ => simp at h

theorem decodeLoop_emit (n : Nat) (t : Option (List Nat)) (u fc x : Nat)
    (rest : List Nat) (p : EKind × Nat)
    (hb : branch (u :: fc :: x :: rest) = (some p, true)) :
    decodeLoop (n + 1) t (u :: fc :: x :: rest) =
      (flushTrash t ++ [mkEvent p.1 (u :: fc :: x :: rest) p.2],
       (u :: fc :: x :: rest).drop
         (eventBytes (mkEvent p.1 (u :: fc :: x :: rest) p.2)).length,
       none) := by
  simp only [decodeLoop, hb, if_true]

theorem decodeLoop_emit_continue (n : Nat) (t : Option (List Nat))
    (u fc x : Nat) (rest : List Nat) (p : EKind × Nat)
    (hb : branch (u :: fc :: x :: rest) = (some p, false)) :
    decodeLoop (n + 1) t (u :: fc :: x :: rest) =
      (flushTrash t ++ [mkEvent p.1 (u :: fc :: x :: rest) p.2] ++
        (decodeLoop n none ((u :: fc :: x :: rest).drop
          (eventBytes (mkEvent p.1 (u :: fc :: x :: rest) p.2)).length)).1,
       (decodeLoop n none ((u :: fc :: x :: rest).drop
          (eventBytes (mkEvent p.1 (u :: fc :: x :: rest) p.2)).length)).2.1,
       (decodeLoop n none ((u :: fc :: x :: rest).drop
          (eventBytes (mkEvent p.1 (u :: fc :: x :: rest) p.2)).length)).2.2) := by
  simp only [decodeLoop, hb, Bool.false_eq_true, if_false, List.append_assoc]

theorem decodeLoop_needMore (n : Nat) (t : Option (List Nat)) (u fc x : Nat)
    (rest : List Nat) (hb : branch (u :: fc :: x :: rest) = (none, true)) :
    decodeLoop (n + 1) t (u :: fc :: x :: rest) = ([], u :: fc :: x :: rest, t) := by
  simp only [decodeLoop, hb]

theorem decodeLoop_noise (n : Nat) (t : Option (List Nat)) (u fc x : Nat)
    (rest : List Nat) (hb : branch (u :: fc :: x :: rest) = (none, false)) :
    decodeLoop (n + 1) t (u :: fc :: x :: rest) =
      decodeLoop n (pushTrash t u) (fc :: x :: rest) := by
  simp only [decodeLoop, hb]

theorem readResponse_cases (d : List Nat) (nm : Bool) (p : EKind × Nat)
    (b : Bool) (h : readResponse d nm = (some p, b)) :
    p.1 = EKind.resp ∧ 1 ≤ p.2 := by
  unfold readResponse at h
  split at h
  · split at h
    · split at h
      · injection h with h1 h2
        injection h1 with h1
        subst h1
        refine ⟨rfl, ?_⟩
        show 1 ≤ 5 + d.getD 2 0
        omega
      · simp at h
    · simp at h
  · simp at h

theorem respFixed8_cases (d : List Nat) (nm : Bool) (p : EKind × Nat)
    (b : Bool) (h : respFixed8 d nm = (some p, b)) : p = (EKind.resp, 8) := by
  unfold respFixed8 at h
  split at h
  · split at h
    · injection h with h1 h2
      injection h1 with h1
      exact h1.symm
    · simp at h
  · simp at h

theorem fc5Response_cases (d : List Nat) (nm : Bool) (p : EKind × Nat)
    (b : Bool) (h : fc5Response d nm = (some p, b)) : p = (EKind.resp, 6) := by
  unfold fc5Response at h
  split at h
  · split at h
    · injection h with h1 h2
      injection h1 with h1
      exact h1.symm
    · simp at h
  · simp at h

theorem fc16ExcCheck_cases (d : List Nat) (nm : Bool) (p : EKind × Nat)
    (b : Bool) (h : fc16ExcCheck d nm = (some p, b)) : p = (EKind.exc, 5) := by
  unfold fc16ExcCheck at h
  split at h
  · split at h
    · injection h with h1 h2
      injection h1 with h1
      exact h1.symm
    · simp at h
  · simp at h

theorem branchRead_cases (d : List Nat) (p : EKind × Nat) (b : Bool)
    (h : branchRead d = (some p, b)) :
    p = (EKind.req, 8) ∨ (p.1 = EKind.resp ∧ 1 ≤ p.2) := by
  unfold branchRead at h
  split at h
  · split at h
    · left
      injection h with h1 h2
      injection h1 with h1
      exact h1.symm
    · exact Or.inr (readResponse_cases d false p b h)
  · exact Or.inr (readResponse_cases d true p b h)

theorem branchFc5_cases (d : List Nat) (p : EKind × Nat) (b : Bool)
    (h : branchFc5 d = (some p, b)) :
    p = (EKind.req, 8) ∨ p = (EKind.resp, 6) := by
  unfold branchFc5 at h
  split at h
  · split at h
    · left
      injection h with h1 h2
      injection h1 with h1
      exact h1.symm
    · exact Or.inr (fc5Response_cases d false p b h)
  · exact Or.inr (fc5Response_cases d true p b h)

theorem branchFc6_cases (d : List Nat) (p : EKind × Nat) (b : Bool)
    (h : branchFc6 d = (some p, b)) :
    p = (EKind.req, 8) ∨ p = (EKind.resp, 8) := by
  unfold branchFc6 at h
  split at h
  · split at h
    · left
      injection h with h1 h2
      injection h1 with h1
      exact h1.symm
    · exact Or.inr (respFixed8_cases d false p b h)
  · exact Or.inr (respFixed8_cases d true p b h)

theorem branchFc15_cases (d : List Nat) (p : EKind × Nat) (b : Bool)
    (h : branchFc15 d = (some p, b)) :
    (p.1 = EKind.req ∧ 1 ≤ p.2) ∨ p = (EKind.resp, 8) := by
  unfold branchFc15 at h
  split at h
  · split at h
    · split at h
      · left
        injection h with h1 h2
        injection h1 with h1
        subst h1
        refine ⟨rfl, ?_⟩
        show 1 ≤ 9 + d.getD 6 0
        omega
      · exact Or.inr (respFixed8_cases d false p b h)
    · exact Or.inr (respFixed8_cases d true p b h)
  · exact Or.inr (respFixed8_cases d true p b h)

theorem fc16Tail_cases (d : List Nat) (nm : Bool) (p : EKind × Nat)
    (b : Bool) (h : fc16Tail d nm = (some p, b)) :
    p = (EKind.resp, 8) ∨ p = (EKind.exc, 5) := by
  unfold fc16Tail at h
  split at h
  · split at h
    · left
      injection h with h1 h2
      injection h1 with h1
      exact h1.symm
    · exact Or.inr (fc16ExcCheck_cases d nm p b h)
  · exact Or.inr (fc16ExcCheck_cases d true p b h)

theorem branchFc16_cases (d : List Nat) (p : EKind × Nat) (b : Bool)
    (h : branchFc16 d = (some p, b)) :
    (p.1 = EKind.req ∧ 1 ≤ p.2) ∨ p = (EKind.resp, 8) ∨ p = (EKind.exc, 5) := by
  unfold branchFc16 at h
  split at h
  · split at h
    · split at h
      · left
        injection h with h1 h2
        injection h1 with h1
        subst h1
        refine ⟨rfl, ?_⟩
        show 1 ≤ 9 + d.getD 6 0
        omega
      · exact Or.inr (fc16Tail_cases d false p b h)
    · exact Or.inr (fc16Tail_cases d true p b h)
  · exact Or.inr (fc16Tail_cases d true p b h)

theorem branchFc23_cases (d : List Nat) (p : EKind × Nat) (b : Bool)
    (h : branchFc23 d = (some p, b)) :
    (p.1 = EKind.req ∧ 1 ≤ p.2) ∨ (p.1 = EKind.resp ∧ 1 ≤ p.2) := by
  unfold branchFc23 at h
  split at h
  · split at h
    · split at h
      · left
        injection h with h1 h2
        injection h1 with h1
        subst h1
        refine ⟨rfl, ?_⟩
        show 1 ≤ 13 + d.getD 10 0
        omega
      · exact Or.inr (readResponse_cases d false p b h)
    · exact Or.inr (readResponse_cases d true p b h)
  · exact Or.inr (readResponse_cases d true p b h)

theorem branchExc_cases (d : List Nat) (p : EKind × Nat) (b : Bool)
    (h : branchExc d = (some p, b)) : p = (EKind.exc, 5) := by
  unfold branchExc at h
  split at h
  · split at h
    · injection h with h1 h2
      injection h1 with h1
      exact h1.symm
    · simp at h
  · simp at h

theorem branch_pos (d : List Nat) (p : EKind × Nat) (nm : Bool)
    (h : branch d = (some p, nm)) : 1 ≤ p.2 := by
  unfold branch branchDispatch at h
  split at h
  · rcases branchRead_cases _ _ _ h with h1 | h1
    · simp [h1]
    · exact h1.2
  · split at h
    · rcases branchRead_cases _ _ _ h with h1 | h1
      · simp [h1]
      · exact h1.2
    · split at h
      · rcases branchFc5_cases _ _ _ h with h1 | h1 <;> simp [h1]
      · split at h
        · rcases branchFc6_cases _ _ _ h with h1 | h1 <;> simp [h1]
        · split at h
          · rcases branchFc15_cases _ _ _ h with h1 | h1
            · exact h1.2
            · simp [h1]
          · split at h
            · rcases branchFc16_cases _ _ _ h with h1 | h1 | h1
              · exact h1.2
              · simp [h1]
              · simp [h1]
            · split at h
              · rcases branchFc23_cases _ _ _ h with h1 | h1
                · exact h1.2
                · exact h1.2
              · split at h
                · simp [branchExc_cases _ _ _ h]
                · simp at h

/-- The only branches that can recognize an exception frame are the
generic high-bit branch and the check inside the function-code-16
branch. -/
theorem branchDispatch_exc (fc : Nat) (d : List Nat) (k : Nat) (nm : Bool)
    (h : branchDispatch fc d = (some (EKind.exc, k), nm)) :
    0x80 ≤ fc ∨ fc = 16 := by
  unfold branchDispatch at h
  split at h
  · rcases branchRead_cases _ _ _ h with h1 | h1 <;> simp_all
  · split at h
    · rcases branchRead_cases _ _ _ h with h1 | h1 <;> simp_all
    · split at h
      · rcases branchFc5_cases _ _ _ h with h1 | h1 <;> simp_all
      · split at h
        · rcases branchFc6_cases _ _ _ h with h1 | h1 <;> simp_all
        · split at h
          · rcases branchFc15_cases _ _ _ h with h1 | h1 <;> simp_all
          · split at h
            · next hfc => exact Or.inr hfc
            · split at h
              · rcases branchFc23_cases _ _ _ h with h1 | h1 <;> simp_all
              · split at h
                · next hfc => exact Or.inl hfc
                · simp at h

theorem decodeLoop_congr (n m : Nat) (t : Option (List Nat)) (d : List Nat)
    (hn : d.length ≤ n) (hm : d.length ≤ m) :
    decodeLoop n t d = decodeLoop m t d := by
  induction n using Nat.strong_induction_on generalizing m t d with
  | _ n ih =>
    match d, hn, hm with
    | [], _, _ => rw [decodeLoop_nil, decodeLoop_nil]
    | [a], _, _ => rw [decodeLoop_short _ _ _ (by simp),
        decodeLoop_short _ _ _ (by simp)]
    | [a, b], _, _ => rw [decodeLoop_short _ _ _ (by simp),
        decodeLoop_short _ _ _ (by simp)]
    | u :: fc :: x :: rest, hn, hm =>
      have hlen : (u :: fc :: x :: rest).length = rest.length + 3 := by simp
      obtain ⟨n', rfl⟩ : ∃ n', n = n' + 1 := ⟨n - 1, by omega⟩
      obtain ⟨m', rfl⟩ : ∃ m', m = m' + 1 := ⟨m - 1, by omega⟩
      rcases hb : branch (u :: fc :: x :: rest) with ⟨o, nm⟩
      rcases o with _ | p
      · cases nm
        · rw [decodeLoop_noise _ _ _ _ _ _ hb, decodeLoop_noise _ _ _ _ _ _ hb]
          have htl : (fc :: x :: rest).length = rest.length + 2 := by simp
          exact ih n' (by omega) m' _ _ (by omega) (by omega)
        · rw [decodeLoop_needMore _ _ _ _ _ _ hb,
            decodeLoop_needMore _ _ _ _ _ _ hb]
      · cases nm
        · rw [decodeLoop_emit_continue _ _ _ _ _ _ _ hb,
            decodeLoop_emit_continue _ _ _ _ _ _ _ hb]
          have hp := branch_pos _ _ _ hb
          have hd2 : ((u :: fc :: x :: rest).drop
              (eventBytes (mkEvent p.1 (u :: fc :: x :: rest) p.2)).length).length
              = rest.length + 3 - min p.2 (rest.length + 3) := by
            rw [eventBytes_mkEvent, List.length_drop, List.length_take, hlen]
          have hr := ih n' (by omega) m' none
            ((u :: fc :: x :: rest).drop
              (eventBytes (mkEvent p.1 (u :: fc :: x :: rest) p.2)).length)
            (by omega) (by omega)
          rw [hr]
        · rw [decodeLoop_emit _ _ _ _ _ _ _ hb, decodeLoop_emit _ _ _ _ _ _ _ hb]

/-- C10: the `decode_modbus` loop terminates on every finite buffer:
each iteration either returns the remaining buffer or strictly
shortens it (a full frame, or exactly one noise byte, from the front),
so a fuel of `d.length` already computes the fixed point — any extra
fuel leaves the result of `decode_modbus` unchanged. -/
theorem decode_modbus_terminates (t : Option (List Nat)) (d : List Nat)
    (k : Nat) : decodeLoop (d.length + k) t d = decode_modbus t d :=
  decodeLoop_congr (d.length + k) d.length t d (Nat.le_add_right _ _)
    (Nat.le_refl _)

/-- C9: for every configured baud rate `B`, `calculate_timeout` returns
`33 / B` seconds when `B < 19200` and `0.00175` seconds otherwise; the
low-rate branch really is `33 / B`, not the conventional `38.5 / B`. -/
theorem calculate_timeout_spec (B : ℕ) :
    (B < 19200 → calculate_timeout B = 33 / (B : ℚ) ∧
      (0 < B → calculate_timeout B ≠ 77 / 2 / (B : ℚ))) ∧
    (19200 ≤ B → calculate_timeout B = 0.00175) := by
  refine ⟨fun h => ⟨?_, fun hB => ?_⟩, fun h => ?_⟩
  · simp [calculate_timeout, h]
  · rw [calculate_timeout, if_pos h]
    intro heq
    have hB0 : (B : ℚ) ≠ 0 := Nat.cast_ne_zero.mpr (by omega)
    have hBpos : (0 : ℚ) < B := by exact_mod_cast hB
    field_simp at heq
    linarith
  · rw [calculate_timeout, if_neg (by omega)]
    norm_num

/-- Witness for C9 at concrete baud rates 9600 and 57600. -/
theorem calculate_timeout_spec_witness :
    calculate_timeout 9600 = 33 / (9600 : ℚ) ∧
    calculate_timeout 9600 ≠ 77 / 2 / (9600 : ℚ) ∧
    calculate_timeout 57600 = 0.00175 :=
  ⟨((calculate_timeout_spec 9600).1 (by norm_num)).1,
   ((calculate_timeout_spec 9600).1 (by norm_num)).2 (by norm_num),
   (calculate_timeout_spec 57600).2 (by norm_num)⟩

/-- C8 counterexample: the Checksum Engine's 16-bit output over the
first six bytes of `01 03 00 00 00 0A C5 CD` is `0xC5CD`, not the
`0xCDC5` the claim states. -/
theorem calcCRC16_request_example_not_CDC5 :
    calcCRC16 [0x01, 0x03, 0x00, 0x00, 0x00, 0x0A, 0xC5, 0xCD] 6 = 0xC5CD ∧
    calcCRC16 [0x01, 0x03, 0x00, 0x00, 0x00, 0x0A, 0xC5, 0xCD] 6 ≠ 0xCDC5 := by
  decide

/-- C8 (amended): `01 03 00 00 00 0A C5 CD` validates and is emitted as
a Request; the engine's output over the first 6 bytes is `0xC5CD`
(wire order `C5 CD`), equal to the decoder's big-endian read of the
embedded checksum bytes. -/
theorem request_example_validates :
    decode_modbus none [0x01, 0x03, 0x00, 0x00, 0x00, 0x0A, 0xC5, 0xCD] =
      ([Event.request 1 3 [0x01, 0x03, 0x00, 0x00, 0x00, 0x0A, 0xC5, 0xCD]],
        [], none) ∧
    calcCRC16 [0x01, 0x03, 0x00, 0x00, 0x00, 0x0A, 0xC5, 0xCD] 6 = 0xC5CD ∧
    be16 [0x01, 0x03, 0x00, 0x00, 0x00, 0x0A, 0xC5, 0xCD] 6 = 0xC5CD := by
  decide

theorem branch_exc_eval (u f x c1 c2 : Nat) (rest : List Nat) (hf : 0x80 ≤ f)
    (hcrc : crcOk (u :: f :: x :: c1 :: c2 :: rest) 3 = true) :
    branch (u :: f :: x :: c1 :: c2 :: rest) = (some (EKind.exc, 5), false) := by
  have hfc : (u :: f :: x :: c1 :: c2 :: rest).getD 1 0 = f := rfl
  unfold branch branchDispatch
  rw [hfc, if_neg (by omega), if_neg (by omega), if_neg (by omega),
    if_neg (by omega), if_neg (by omega), if_neg (by omega), if_neg (by omega),
    if_pos hf]
  unfold branchExc
  rw [if_pos (by simp), if_pos hcrc]

/-- C2: any buffered frame whose function-code byte has the high bit
set, with at least 5 bytes available and a checksum over bytes `[0,3)`
matching the embedded big-endian value at `[3,5)`, is decoded by the
single generic exception branch: the first emitted event is
`Exception` with the frame's unit id, raw function-code byte, and
exception code, and the original function code is recovered as
`function_code &&& 0x7F` — independent of any per-function-code shape
table entry. -/
theorem decode_exception_generic (u f x c1 c2 : Nat) (rest : List Nat)
    (hf : 0x80 ≤ f) (hf2 : f < 0x100)
    (hcrc : crcOk (u :: f :: x :: c1 :: c2 :: rest) 3 = true) :
    (decode_modbus none (u :: f :: x :: c1 :: c2 :: rest)).1.head? =
      some (Event.exception u f x [u, f, x, c1, c2]) ∧
    f &&& 0x7F = f - 0x80 := by
  constructor
  · have hb := branch_exc_eval u f x c1 c2 rest hf hcrc
    have hlen : (u :: f :: x :: c1 :: c2 :: rest).length =
        (rest.length + 4) + 1 := by simp
    unfold decode_modbus
    rw [hlen, decodeLoop_emit_continue _ _ _ _ _ _ _ hb]
    simp [mkEvent, flushTrash]
  · interval_cases f <;> decide

/-- Witness for C2 at the concrete frame `01 83 02 C0 F1`. -/
theorem decode_exception_generic_witness :
    (decode_modbus none [0x01, 0x83, 0x02, 0xC0, 0xF1]).1.head? =
      some (Event.exception 0x01 0x83 0x02 [0x01, 0x83, 0x02, 0xC0, 0xF1]) ∧
    0x83 &&& 0x7F = 0x83 - 0x80 :=
  decode_exception_generic 0x01 0x83 0x02 0xC0 0xF1 [] (by decide) (by decide)
    (by decide)

/-- C4 counterexample: the exception-shaped check inside the
function-code-16 branch is reachable.  The 5-byte input
`01 10 02 AC 01` has second byte `0x10` (high bit clear), yet
`decode_modbus` emits an Exception event for it. -/
theorem fc16_exception_reachable :
    decode_modbus none [0x01, 0x10, 0x02, 0xAC, 0x01] =
      ([Event.exception 1 16 2 [0x01, 0x10, 0x02, 0xAC, 0x01]], [], none) ∧
    ¬ 0x80 ≤ ([0x01, 0x10, 0x02, 0xAC, 0x01] : List Nat).getD 1 0 := by
  decide

/-- C4 (amended): an exception frame can be recognized only by the
generic high-bit branch or by the exception check inside the
function-code-16 branch; the latter is reachable (witnessed by the
concrete 5-byte frame `01 10 02 AC 01`, whose second byte is below
`0x80`). -/
theorem exception_events_only_high_bit_or_fc16 :
    (∀ (d : List Nat) (k : Nat) (nm : Bool),
      branch d = (some (EKind.exc, k), nm) →
      0x80 ≤ d.getD 1 0 ∨ d.getD 1 0 = 16) ∧
    decode_modbus none [0x01, 0x10, 0x02, 0xAC, 0x01] =
      ([Event.exception 1 16 2 [0x01, 0x10, 0x02, 0xAC, 0x01]], [], none) := by
  exact ⟨fun d k nm h => branchDispatch_exc (d.getD 1 0) d k nm h, by decide⟩

/-- Witness for C4 (amended) at a concrete exception-recognizing
branch evaluation. -/
theorem exception_events_only_high_bit_or_fc16_witness :
    0x80 ≤ ([0x01, 0x83, 0x02, 0xC0, 0xF1] : List Nat).getD 1 0 ∨
      ([0x01, 0x83, 0x02, 0xC0, 0xF1] : List Nat).getD 1 0 = 16 :=
  exception_events_only_high_bit_or_fc16.1 [0x01, 0x83, 0x02, 0xC0, 0xF1] 5
    false (by decide)

theorem branch_read_dispatch (d : List Nat)
    (hf : d.getD 1 0 = 1 ∨ d.getD 1 0 = 2 ∨ d.getD 1 0 = 3 ∨ d.getD 1 0 = 4) :
    branch d = branchRead d := by
  unfold branch branchDispatch
  rcases hf with h | h | h | h <;> rw [h] <;> simp

/-- C3 counterexample: with the 7-byte buffer `01 01 02 AA BB 87 2F`
the Request shape for function code 1 is merely insufficient in length
(7 < 8), yet the decoder does attempt the Response shape and emits a
Response event instead of returning `need_more` with nothing emitted. -/
theorem response_emitted_despite_short_request :
    decode_modbus none [0x01, 0x01, 0x02, 0xAA, 0xBB, 0x87, 0x2F] =
      ([Event.response 1 1 [0x01, 0x01, 0x02, 0xAA, 0xBB, 0x87, 0x2F]],
        [], none) := by
  decide

/-- C3 (amended): for function codes 1–4, when the buffer holds exactly
7 bytes the Request shape is insufficient (7 < 8), but the Response
shape is still attempted: if the count byte is at most 2 and the
response checksum matches, a Response is emitted and the decoder
returns the remainder at once (the need-more flag from the Request
insufficiency is still set); only if the response checksum also fails
does the decoder return `need_more` with nothing emitted or
discarded. -/
theorem response_attempted_after_short_request (u f x a b k1 k2 : Nat)
    (hf : f = 1 ∨ f = 2 ∨ f = 3 ∨ f = 4) (hx : x ≤ 2) :
    (crcOk [u, f, x, a, b, k1, k2] (3 + x) = true →
      decode_modbus none [u, f, x, a, b, k1, k2] =
        ([Event.response u f ([u, f, x, a, b, k1, k2].take (5 + x))],
          [u, f, x, a, b, k1, k2].drop (5 + x), none)) ∧
    (crcOk [u, f, x, a, b, k1, k2] (3 + x) = false →
      decode_modbus none [u, f, x, a, b, k1, k2] =
        ([], [u, f, x, a, b, k1, k2], none)) := by
  have hd : branch [u, f, x, a, b, k1, k2] = branchRead [u, f, x, a, b, k1, k2] :=
    branch_read_dispatch _ hf
  have h8 : ¬ (8 ≤ ([u, f, x, a, b, k1, k2] : List Nat).length) := by simp
  have hx2 : ([u, f, x, a, b, k1, k2] : List Nat).getD 2 0 = x := rfl
  unfold branchRead at hd
  rw [if_neg h8] at hd
  unfold readResponse at hd
  rw [hx2, if_pos (by simp), if_pos (by simp; omega)] at hd
  have hfuel : ([u, f, x, a, b, k1, k2] : List Nat).length = 6 + 1 := by simp
  constructor
  · intro hcrc
    rw [if_pos hcrc] at hd
    unfold decode_modbus
    rw [hfuel, decodeLoop_emit _ _ _ _ _ _ _ hd]
    have hmin : min (5 + x) 7 = 5 + x := by omega
    simp [mkEvent, eventBytes, flushTrash, List.length_take, hmin]
  · intro hcrc
    rw [if_neg (by simp [hcrc])] at hd
    unfold decode_modbus
    rw [hfuel, decodeLoop_needMore _ _ _ _ _ _ hd]

/-- C5 counterexample: a complete, checksum-valid 0-data-byte read
response (function code 1, count 0, total `5 + 0 = 5` bytes:
`01 01 00 21 90`) is not recognized once its 5 bytes are available —
the decoder returns `need_more` with nothing emitted, because the
response shape is gated on 7 buffered bytes before the count byte is
examined. -/
theorem short_read_response_not_emitted :
    decode_modbus none [0x01, 0x01, 0x00, 0x21, 0x90] =
      ([], [0x01, 0x01, 0x00, 0x21, 0x90], none) := by
  decide

/-- C5 (amended): a buffered response frame for function codes 1–4 of
total length `5 + c` (count byte `c`, `c` data bytes, valid checksum
over the first `3 + c` bytes) alone in the buffer is emitted as a
Response once its `5 + c` bytes are available when `c ≥ 2` — provided
that, when 8 bytes are available, the request-shape checksum over the
first 6 bytes does not also match (the Request shape is attempted
first); but for `c < 2` the decoder returns `need_more` from exactly
`5 + c` bytes, because the count byte is only examined once 7 bytes
are buffered. -/
theorem read_response_staged (u f c k1 k2 : Nat) (payload : List Nat)
    (hf : f = 1 ∨ f = 2 ∨ f = 3 ∨ f = 4) (hp : payload.length = c)
    (hcrc : crcOk (u :: f :: c :: (payload ++ [k1, k2])) (3 + c) = true) :
    (c < 2 → decode_modbus none (u :: f :: c :: (payload ++ [k1, k2])) =
      ([], u :: f :: c :: (payload ++ [k1, k2]), none)) ∧
    (2 ≤ c →
      (8 ≤ (u :: f :: c :: (payload ++ [k1, k2])).length →
        crcOk (u :: f :: c :: (payload ++ [k1, k2])) 6 = false) →
      decode_modbus none (u :: f :: c :: (payload ++ [k1, k2])) =
        ([Event.response u f (u :: f :: c :: (payload ++ [k1, k2]))],
          [], none)) := by
  have hd : branch (u :: f :: c :: (payload ++ [k1, k2])) =
      branchRead (u :: f :: c :: (payload ++ [k1, k2])) :=
    branch_read_dispatch _ hf
  have hlen : (u :: f :: c :: (payload ++ [k1, k2])).length = c + 5 := by
    simp [hp]
  have hc2 : (u :: f :: c :: (payload ++ [k1, k2])).getD 2 0 = c := rfl
  have hfuel : c + 5 = (c + 4) + 1 := rfl
  have htake : (u :: f :: c :: (payload ++ [k1, k2])).take (5 + c) =
      u :: f :: c :: (payload ++ [k1, k2]) := by
    apply List.take_of_length_le
    omega
  constructor
  · intro hc
    have h8 : ¬ (8 ≤ (u :: f :: c :: (payload ++ [k1, k2])).length) := by
      omega
    have h7 : ¬ (7 ≤ (u :: f :: c :: (payload ++ [k1, k2])).length) := by
      omega
    unfold branchRead at hd
    rw [if_neg h8] at hd
    unfold readResponse at hd
    rw [if_neg h7] at hd
    unfold decode_modbus
    rw [hlen, hfuel, decodeLoop_needMore _ _ _ _ _ _ hd]
  · intro hc hreq
    by_cases h8 : 8 ≤ (u :: f :: c :: (payload ++ [k1, k2])).length
    · unfold branchRead at hd
      rw [if_pos h8, if_neg (by simp [hreq h8])] at hd
      unfold readResponse at hd
      rw [hc2, if_pos (by omega), if_pos (by omega), if_pos hcrc] at hd
      unfold decode_modbus
      rw [hlen, hfuel, decodeLoop_emit_continue _ _ _ _ _ _ _ hd]
      simp only [mkEvent, eventBytes, flushTrash, htake,
        List.drop_length, List.nil_append, decodeLoop_nil,
        List.getD_cons_zero, List.getD_cons_succ]
      simp
    · unfold branchRead at hd
      rw [if_neg h8] at hd
      unfold readResponse at hd
      rw [hc2, if_pos (by omega), if_pos (by omega), if_pos hcrc] at hd
      unfold decode_modbus
      rw [hlen, hfuel, decodeLoop_emit _ _ _ _ _ _ _ hd]
      simp only [mkEvent, eventBytes, flushTrash, htake,
        List.drop_length, List.nil_append, List.getD_cons_zero,
        List.getD_cons_succ]

/-- Witness for C3 (amended) at the concrete 7-byte buffer
`01 02 02 11 22 35 F1`. -/
theorem response_attempted_after_short_request_witness :
    decode_modbus none [0x01, 0x02, 0x02, 0x11, 0x22, 0x35, 0xF1] =
      ([Event.response 0x01 0x02
          ([0x01, 0x02, 0x02, 0x11, 0x22, 0x35, 0xF1].take (5 + 0x02))],
        [0x01, 0x02, 0x02, 0x11, 0x22, 0x35, 0xF1].drop (5 + 0x02), none) :=
  (response_attempted_after_short_request 0x01 0x02 0x02 0x11 0x22 0x35 0xF1
    (by decide) (by decide)).1 (by decide)

/-- Witness for C5 (amended) at the concrete frames
`01 03 02 CC DD 2D 1D` (count 2) and `01 01 00 21 90` (count 0). -/
theorem read_response_staged_witness :
    decode_modbus none [0x01, 0x03, 0x02, 0xCC, 0xDD, 0x2D, 0x1D] =
      ([Event.response 0x01 0x03 [0x01, 0x03, 0x02, 0xCC, 0xDD, 0x2D, 0x1D]],
        [], none) ∧
    decode_modbus none [0x01, 0x01, 0x00, 0x21, 0x90] =
      ([], [0x01, 0x01, 0x00, 0x21, 0x90], none) :=
  ⟨(read_response_staged 0x01 0x03 0x02 0x2D 0x1D [0xCC, 0xDD] (by decide)
      (by decide) (by decide)).2 (by decide) (by decide),
   (read_response_staged 0x01 0x01 0x00 0x21 0x90 [] (by decide) (by decide)
      (by decide)).1 (by decide)⟩

/-- C7: whenever a frame is recognized at the front of the buffer
while a noise run is open, the noise run is closed and emitted as a
single event immediately before the decoded frame; concretely, `FF FF`
followed by the valid request `01 03 00 00 00 0A C5 CD` yields exactly
one 2-byte NoiseRun event followed by the Request event, with an empty
buffer left over. -/
theorem noise_run_closed_before_frame :
    (∀ (n : Nat) (bs : List Nat) (u fc x : Nat) (rest : List Nat)
      (p : EKind × Nat) (nm : Bool),
      branch (u :: fc :: x :: rest) = (some p, nm) →
      ∃ tail, (decodeLoop (n + 1) (some bs) (u :: fc :: x :: rest)).1 =
        Event.noise bs :: mkEvent p.1 (u :: fc :: x :: rest) p.2 :: tail) ∧
    decode_modbus none
        [0xFF, 0xFF, 0x01, 0x03, 0x00, 0x00, 0x00, 0x0A, 0xC5, 0xCD] =
      ([Event.noise [0xFF, 0xFF],
        Event.request 1 3 [0x01, 0x03, 0x00, 0x00, 0x00, 0x0A, 0xC5, 0xCD]],
        [], none) := by
  refine ⟨fun n bs u fc x rest p nm h => ?_, by decide⟩
  cases nm
  · rw [decodeLoop_emit_continue _ _ _ _ _ _ _ h]
    exact ⟨_, rfl⟩
  · rw [decodeLoop_emit _ _ _ _ _ _ _ h]
    exact ⟨[], rfl⟩

/-- Witness for C7's flush property at a concrete branch emission. -/
theorem noise_run_closed_before_frame_witness :
    ∃ tail, (decodeLoop (0 + 1) (some [0x09])
        [0x01, 0x03, 0x00, 0x00, 0x00, 0x0A, 0xC5, 0xCD]).1 =
      Event.noise [0x09] :: mkEvent EKind.req
        [0x01, 0x03, 0x00, 0x00, 0x00, 0x0A, 0xC5, 0xCD] 8 :: tail :=
  noise_run_closed_before_frame.1 0 [0x09] 0x01 0x03 0x00
    [0x00, 0x00, 0x0A, 0xC5, 0xCD] (EKind.req, 8) false (by decide)

theorem evsBytes_singleton (e : Event) : evsBytes [e] = eventBytes e := by
  simp [evsBytes]

theorem trashBytes_none : trashBytes none = [] := rfl

theorem append_glue {α : Type} {a b c d e f : List α} (g : List α)
    (h : a ++ (b ++ c) = d ++ (e ++ f)) :
    a ++ (b ++ (c ++ g)) = d ++ (e ++ (f ++ g)) := by
  have := congrArg (· ++ g) h
  simpa [List.append_assoc] using this

theorem decodeLoop_accounting (n : Nat) (t : Option (List Nat))
    (d : List Nat) :
    evsBytes (decodeLoop n t d).1 ++
      (trashBytes (decodeLoop n t d).2.2 ++ (decodeLoop n t d).2.1) =
    trashBytes t ++ d := by
  induction n generalizing t d with
  | zero => simp [decodeLoop, evsBytes]
  | succ n ih =>
    match d with
    | [] => simp [decodeLoop, evsBytes]
    | [a] => simp [decodeLoop, evsBytes]
    | [a, b] => simp [decodeLoop, evsBytes]
    | u :: fc :: x :: rest =>
      rcases hb : branch (u :: fc :: x :: rest) with ⟨o, nm⟩
      rcases o with _ | p
      · cases nm
        · rw [decodeLoop_noise _ _ _ _ _ _ hb, ih]
          cases t <;> simp [pushTrash, trashBytes]
        · rw [decodeLoop_needMore _ _ _ _ _ _ hb]
          simp [evsBytes]
      · cases nm
        · rw [decodeLoop_emit_continue _ _ _ _ _ _ _ hb]
          have hih := ih none ((u :: fc :: x :: rest).drop
            (eventBytes (mkEvent p.1 (u :: fc :: x :: rest) p.2)).length)
          simp only [trashBytes_none, List.nil_append] at hih
          rw [evsBytes_append, evsBytes_append, evsBytes_flushTrash,
            evsBytes_singleton]
          simp only [List.append_assoc]
          rw [hih, eventBytes_mkEvent, take_drop_span]
        · rw [decodeLoop_emit _ _ _ _ _ _ _ hb]
          rw [evsBytes_append, evsBytes_flushTrash, evsBytes_singleton,
            eventBytes_mkEvent]
          simp only [trashBytes_none, List.append_assoc, List.nil_append]
          rw [take_drop_span]

theorem process_data_accounting (st : SnifferState) (chunk : List Nat) :
    evsBytes (process_data st chunk).2 ++
      (trashBytes (process_data st chunk).1.trash ++
        (process_data st chunk).1.data) =
    trashBytes st.trash ++ (st.data ++ chunk) := by
  unfold process_data
  split
  · next hlen =>
    have hnil : chunk = [] := List.eq_nil_of_length_eq_zero (by omega)
    subst hnil
    split
    · have h := decodeLoop_accounting st.data.length st.trash st.data
      simpa [decode_modbus] using h
    · simp [evsBytes]
  · simp [evsBytes]

theorem runChunks_accounting (chunks : List (List Nat)) (st : SnifferState) :
    evsBytes (runChunks st chunks).2 ++
      (trashBytes (runChunks st chunks).1.trash ++
        (runChunks st chunks).1.data) =
    trashBytes st.trash ++ (st.data ++ chunks.flatten) := by
  induction chunks generalizing st with
  | nil => simp [runChunks, evsBytes]
  | cons c cs ih =>
    rcases hpd : process_data st c with ⟨st1, evs1⟩
    rcases hrc : runChunks st1 cs with ⟨st2, evs2⟩
    have hrun : runChunks st (c :: cs) = (st2, evs1 ++ evs2) := by
      simp only [runChunks, hpd, hrc]
    have h1 := process_data_accounting st c
    rw [hpd] at h1
    have h2 := ih st1
    rw [hrc] at h2
    rw [hrun]
    simp only [List.flatten_cons]
    rw [evsBytes_append]
    simp only [List.append_assoc]
    rw [h2]
    have := append_glue cs.flatten h1
    simp only [List.append_assoc] at this
    rw [this]

/-- C6: total byte accounting — for any input fed through
`process_data` in arbitrary chunk boundaries (including empty chunks,
which trigger decoding), the concatenation of the emitted events' byte
spans (noise runs and frames, in emission order), followed by the
bytes of the still-open noise run and the bytes still pending in the
buffer, reconstructs the entire input: every input byte is accounted
for exactly once. -/
theorem ingest_byte_accounting (chunks : List (List Nat)) :
    evsBytes (runChunks ⟨[], none⟩ chunks).2 ++
      (trashBytes (runChunks ⟨[], none⟩ chunks).1.trash ++
        (runChunks ⟨[], none⟩ chunks).1.data) = chunks.flatten := by
  have h := runChunks_accounting chunks ⟨[], none⟩
  simpa [trashBytes] using h

/-- C1 counterexample: feeding the first 5 bytes of the 8-byte fixed
response `01 10 00 01 00 02 10 08` and then the remaining 3 bytes in a
second non-empty `process_data` call emits no event at all — the
second call does not attempt extraction (the claim expects exactly one
Response event from it), leaving all 8 bytes buffered. -/
theorem nonempty_ingest_does_not_decode :
    (process_data (process_data ⟨[], none⟩
        [0x01, 0x10, 0x00, 0x01, 0x00]).1 [0x02, 0x10, 0x08]).2 = [] ∧
    (process_data (process_data ⟨[], none⟩
        [0x01, 0x10, 0x00, 0x01, 0x00]).1 [0x02, 0x10, 0x08]).1.data =
      [0x01, 0x10, 0x00, 0x01, 0x00, 0x02, 0x10, 0x08] := by
  decide

/-- C1 (amended): a non-empty chunk is only appended to the buffer —
extraction is attempted only by an empty-chunk call (the silence
trigger) when more than 2 bytes are buffered.  Concretely: feeding the
first 5 bytes of the 8-byte fixed Response `01 10 00 01 00 02 10 08`
emits nothing and buffers 5 bytes; feeding the remaining 3 bytes also
emits nothing and buffers all 8; a following empty-chunk call then
emits exactly one Response event and empties the buffer. -/
theorem ingest_appends_then_decodes_on_silence :
    (∀ (st : SnifferState) (b : Nat) (chunk : List Nat),
      process_data st (b :: chunk) = (⟨st.data ++ b :: chunk, st.trash⟩, [])) ∧
    process_data ⟨[], none⟩ [0x01, 0x10, 0x00, 0x01, 0x00] =
      (⟨[0x01, 0x10, 0x00, 0x01, 0x00], none⟩, []) ∧
    process_data ⟨[0x01, 0x10, 0x00, 0x01, 0x00], none⟩ [0x02, 0x10, 0x08] =
      (⟨[0x01, 0x10, 0x00, 0x01, 0x00, 0x02, 0x10, 0x08], none⟩, []) ∧
    process_data ⟨[0x01, 0x10, 0x00, 0x01, 0x00, 0x02, 0x10, 0x08], none⟩ [] =
      (⟨[], none⟩,
        [Event.response 1 16 [0x01, 0x10, 0x00, 0x01, 0x00, 0x02, 0x10, 0x08]]) := by
  refine ⟨fun st b chunk => ?_, by decide, by decide, by decide⟩
  simp [process_data]

end ModbusSniffer
